import Mathlib

/-
Verification development for the ASAM ODS EXD API MDF4 external data reader
(`external_data_reader.py`).  The Python service is shallowly embedded:

* the ODS protocol data-type enumeration becomes an inductive type;
* the pure type-inference functions (`__get_channel_data_type_base`,
  `__get_conversion_data_type`, `__get_channel_data_type`) become Lean
  functions over `Nat` kind/bit-count descriptors;
* the handle registry (`__open_mdf` / `__close_mdf` / `__get_mdf`) becomes
  explicit state passing over association lists modelling the two Python
  dicts `connection_map` and `file_map`;
* `GetValues` / `GetStructure` become functions into `Except Err _`,
  where `Err` distinguishes the gRPC aborts raised by the code from raw
  Python exceptions (`KeyError`, `NotImplementedError`, ...);
* floating-point sample values are represented by an integer stand-in:
  every property proved here is about arrangement, lengths and variants of
  the marshalled arrays, never about float arithmetic.
-/

namespace Mdf4Exd

/-- The subset of the ODS `DataTypeEnum` used by the reader. -/
inductive DataTypeEnum where
  | DT_BOOLEAN
  | DT_BYTE
  | DT_SHORT
  | DT_LONG
  | DT_LONGLONG
  | DT_FLOAT
  | DT_DOUBLE
  | DT_STRING
  | DT_BYTESTR
  | DT_DATE
  | DT_COMPLEX
  | DT_DCOMPLEX
deriving DecidableEq, Repr

/-- Embeds the `0 <= mdf4_data_type <= 1` block of
`__get_channel_data_type_base` (unsigned integer kinds); `none` models
falling through the block without returning. -/
def base_unsigned_integer (mdf4_data_type mdf4_data_bit_count : Nat) : Option DataTypeEnum :=
  if 0 ≤ mdf4_data_type ∧ mdf4_data_type ≤ 1 then
    if 1 = mdf4_data_bit_count then some .DT_BOOLEAN
    else if 2 ≤ mdf4_data_bit_count ∧ mdf4_data_bit_count ≤ 8 then some .DT_BYTE
    else if 8 ≤ mdf4_data_bit_count ∧ mdf4_data_bit_count ≤ 15 then some .DT_SHORT
    else if 16 ≤ mdf4_data_bit_count ∧ mdf4_data_bit_count ≤ 31 then some .DT_LONG
    else if 32 ≤ mdf4_data_bit_count ∧ mdf4_data_bit_count ≤ 63 then some .DT_LONGLONG
    else if 64 ≤ mdf4_data_bit_count ∧ mdf4_data_bit_count ≤ 64 then some .DT_DOUBLE
    else none
  else none

/-- Embeds the `2 <= mdf4_data_type <= 3` block (signed two's-complement
integer kinds). -/
def base_signed_integer (mdf4_data_type mdf4_data_bit_count : Nat) : Option DataTypeEnum :=
  if 2 ≤ mdf4_data_type ∧ mdf4_data_type ≤ 3 then
    if 1 = mdf4_data_bit_count then some .DT_BOOLEAN
    else if 2 ≤ mdf4_data_bit_count ∧ mdf4_data_bit_count ≤ 16 then some .DT_SHORT
    else if 17 ≤ mdf4_data_bit_count ∧ mdf4_data_bit_count ≤ 32 then some .DT_LONG
    else if 33 ≤ mdf4_data_bit_count ∧ mdf4_data_bit_count ≤ 64 then some .DT_LONGLONG
    else none
  else none

/-- Embeds the `4 <= mdf4_data_type <= 5` block (IEEE 754 floating-point
kinds). -/
def base_floating_point (mdf4_data_type mdf4_data_bit_count : Nat) : Option DataTypeEnum :=
  if 4 ≤ mdf4_data_type ∧ mdf4_data_type ≤ 5 then
    if 1 ≤ mdf4_data_bit_count ∧ mdf4_data_bit_count ≤ 32 then some .DT_FLOAT
    else if 33 ≤ mdf4_data_bit_count ∧ mdf4_data_bit_count ≤ 64 then some .DT_DOUBLE
    else none
  else none

/-- Embeds the `6 <= mdf4_data_type <= 9` block (string kinds). -/
def base_string_kind (mdf4_data_type : Nat) : Option DataTypeEnum :=
  if 6 ≤ mdf4_data_type ∧ mdf4_data_type ≤ 9 then some .DT_STRING else none

/-- Embeds the `10 <= mdf4_data_type <= 12` block (byte-array / MIME kinds). -/
def base_bytestr_kind (mdf4_data_type : Nat) : Option DataTypeEnum :=
  if 10 ≤ mdf4_data_type ∧ mdf4_data_type ≤ 12 then some .DT_BYTESTR else none

/-- Embeds the `13 <= mdf4_data_type <= 14` block (CANopen date/time kinds). -/
def base_date_kind (mdf4_data_type : Nat) : Option DataTypeEnum :=
  if 13 ≤ mdf4_data_type ∧ mdf4_data_type ≤ 14 then some .DT_DATE else none

/-- Embeds the `15 <= mdf4_data_type <= 16` block (complex number kinds). -/
def base_complex_kind (mdf4_data_type mdf4_data_bit_count : Nat) : Option DataTypeEnum :=
  if 15 ≤ mdf4_data_type ∧ mdf4_data_type ≤ 16 then
    if 1 ≤ mdf4_data_bit_count ∧ mdf4_data_bit_count ≤ 64 then some .DT_COMPLEX
    else if 65 ≤ mdf4_data_bit_count ∧ mdf4_data_bit_count ≤ 128 then some .DT_DCOMPLEX
    else none
  else none

/-- Embeds `__get_channel_data_type_base`: the consecutive `if` blocks of
the Python function each either return a type or fall through to the next
block, and the final `return ods.DataTypeEnum.DT_DOUBLE` is the fallback. -/
def get_channel_data_type_base (mdf4_data_type mdf4_data_bit_count : Nat) : DataTypeEnum :=
  (base_unsigned_integer mdf4_data_type mdf4_data_bit_count <|>
   base_signed_integer mdf4_data_type mdf4_data_bit_count <|>
   base_floating_point mdf4_data_type mdf4_data_bit_count <|>
   base_string_kind mdf4_data_type <|>
   base_bytestr_kind mdf4_data_type <|>
   base_date_kind mdf4_data_type <|>
   base_complex_kind mdf4_data_type mdf4_data_bit_count).getD .DT_DOUBLE

/-- Modelled from the spec: the base-type table of the Type Inference
Engine (spec section 4.2, Stage 1), with rows evaluated top-to-bottom and
the first matching row taken, and `double` as the fallback for any
unmatched `(kind, bit width)` pair.  Unsigned-integer kinds are 0-1,
signed-integer kinds 2-3, float kinds 4-5, string kinds 6-9, opaque/MIME
byte kinds 10-12, date/time kinds 13-14 and complex kinds 15-16. -/
def spec_base_type (kind width : Nat) : DataTypeEnum :=
  if kind ≤ 1 ∧ width = 1 then .DT_BOOLEAN
  else if kind ≤ 1 ∧ 2 ≤ width ∧ width ≤ 8 then .DT_BYTE
  else if kind ≤ 1 ∧ 8 ≤ width ∧ width ≤ 15 then .DT_SHORT
  else if kind ≤ 1 ∧ 16 ≤ width ∧ width ≤ 31 then .DT_LONG
  else if kind ≤ 1 ∧ 32 ≤ width ∧ width ≤ 63 then .DT_LONGLONG
  else if kind ≤ 1 ∧ width = 64 then .DT_DOUBLE
  else if 2 ≤ kind ∧ kind ≤ 3 ∧ width = 1 then .DT_BOOLEAN
  else if 2 ≤ kind ∧ kind ≤ 3 ∧ 2 ≤ width ∧ width ≤ 16 then .DT_SHORT
  else if 2 ≤ kind ∧ kind ≤ 3 ∧ 17 ≤ width ∧ width ≤ 32 then .DT_LONG
  else if 2 ≤ kind ∧ kind ≤ 3 ∧ 33 ≤ width ∧ width ≤ 64 then .DT_LONGLONG
  else if 4 ≤ kind ∧ kind ≤ 5 ∧ 1 ≤ width ∧ width ≤ 32 then .DT_FLOAT
  else if 4 ≤ kind ∧ kind ≤ 5 ∧ 33 ≤ width ∧ width ≤ 64 then .DT_DOUBLE
  else if 6 ≤ kind ∧ kind ≤ 9 then .DT_STRING
  else if 10 ≤ kind ∧ kind ≤ 12 then .DT_BYTESTR
  else if 13 ≤ kind ∧ kind ≤ 14 then .DT_DATE
  else if 15 ≤ kind ∧ kind ≤ 16 ∧ 1 ≤ width ∧ width ≤ 64 then .DT_COMPLEX
  else if 15 ≤ kind ∧ kind ≤ 16 ∧ 65 ≤ width ∧ width ≤ 128 then .DT_DCOMPLEX
  else .DT_DOUBLE

/-- Embeds asammdf's `ChannelConversion` as far as `__get_conversion_data_type`
inspects it: `conversion_type`, `flags` and the `"default_addr"` entry of
`referenced_blocks`.  The outer `Option` of `referenced_blocks` models the
check `referenced_blocks is not None`; the inner `Option` models the dict
lookup `referenced_blocks.get("default_addr")`, which may be absent. -/
inductive ChannelConversion where
  | mk (conversion_type : Nat) (flags : Nat)
      (referenced_blocks : Option (Option ChannelConversion))

/-- Accessor for the conversion type number. -/
def ChannelConversion.conversion_type : ChannelConversion → Nat
  | .mk c _ _ => c

/-- Accessor for the conversion flags. -/
def ChannelConversion.flags : ChannelConversion → Nat
  | .mk _ f _ => f

/-- Accessor for the referenced-blocks field. -/
def ChannelConversion.referenced_blocks :
    ChannelConversion → Option (Option ChannelConversion)
  | .mk _ _ r => r

/-- Embeds `__get_conversion_data_type`.  A `none` argument models the
`conversion is not None` guard failing, which returns `rv` unchanged.
Conversion types 1-5 are the numeric conversions, type 9 is the
text-to-value tabular look-up and types 7-8 are the (value-)to-text
look-ups whose status-string flag (bit 4) redirects to the conversion
referenced under `"default_addr"`. -/
def get_conversion_data_type (rv : DataTypeEnum) :
    Option ChannelConversion → DataTypeEnum
  | none => rv
  | some (.mk ctype flags refblocks) =>
    if DataTypeEnum.DT_STRING = rv then
      if 9 = ctype then .DT_DOUBLE
      else rv
    else if ctype ∈ ([1, 2, 3, 4, 5] : List Nat) then .DT_DOUBLE
    else if ctype ∈ ([7, 8] : List Nat) then
      if flags &&& 4 ≠ 0 then
        match refblocks with
        | some default_addr => get_conversion_data_type rv default_addr
        | none => .DT_STRING
      else .DT_STRING
    else rv

/-- Embeds the decoder-provided per-channel sample buffer that
`mdf4.select` yields.  Floating-point sample values are represented by an
integer stand-in; complex samples carry (real, imaginary) pairs. -/
inductive SampleData where
  | numeric (vals : List Int)
  | complexes (vals : List (Int × Int))
  | strings (vals : List String)
  | bytestrs (vals : List (List Nat))
deriving DecidableEq, Repr

/-- Embeds the fields of an asammdf `Channel` that the reader inspects,
together with the channel's stored sample column (owned by the decoder and
returned through `select`). -/
structure MdfChannel where
  name : String
  unit : String
  comment : Option String
  data_type : Nat
  bit_count : Nat
  conversion : Option ChannelConversion
  samples : SampleData

/-- Embeds `__get_channel_data_type`: the Stage-1 base type, overridden by
`__get_conversion_data_type` when a conversion is present. -/
def get_channel_data_type (channel : MdfChannel) : DataTypeEnum :=
  let rv := get_channel_data_type_base channel.data_type channel.bit_count
  if channel.conversion.isSome then get_conversion_data_type rv channel.conversion
  else rv

/-- A concrete channel whose Stage-1 base type is string (kind 6) and whose
conversion is the linear conversion (type 1). -/
def stringLinearChannel : MdfChannel :=
  { name := "c", unit := "", comment := none, data_type := 6, bit_count := 64,
    conversion := some (.mk 1 0 none), samples := .strings [] }

/-- A concrete channel with a numeric (kind 0, 32-bit) base type and a
polynomial conversion (type 2). -/
def numericPolyChannel : MdfChannel :=
  { name := "c", unit := "", comment := none, data_type := 0, bit_count := 32,
    conversion := some (.mk 2 0 none), samples := .numeric [] }

/-- Embeds a value of the header's nested common-properties mapping: a
Python dict becomes a `node` over its ordered entries, and any non-dict
value becomes a `leaf` holding the result of `str(value)`. -/
inductive PropTree where
  | leaf (value : String)
  | node (entries : List (String × PropTree))

/-- Embeds the inner `add_attributes` closure of `__add_file_header`: a
path-accumulating flattening of the nested property tree, appending
`(key, value)` attribute entries in traversal order.  The accumulated
prefix is `None` at the top level, and the entry key is
`prefix ++ "~" ++ key` once a prefix exists. -/
def add_attributes (pfx : Option String) :
    List (String × PropTree) → List (String × String)
  | [] => []
  | (key, value) :: rest =>
    let entry := match pfx with
      | some p => p ++ "~" ++ key
      | none => key
    (match value with
     | .node sub => add_attributes (some entry) sub
     | .leaf s => [(entry, s)]) ++ add_attributes pfx rest

/-- Embeds the fields of the asammdf `HeaderBlock` that
`__add_file_header` reads. -/
structure HeaderBlock where
  description : Option String
  common_properties : Option (List (String × PropTree))

/-- Embeds `__add_file_header`: nothing for a missing header, else the
optional description attribute followed by the flattened
common-properties tree. -/
def add_file_header : Option HeaderBlock → List (String × String)
  | none => []
  | some header =>
    (match header.description with
     | some d => [("description", d)]
     | none => []) ++
    (match header.common_properties with
     | some props => add_attributes none props
     | none => [])

/-- Modelled from the spec: the key of a leaf is "the path of keys joined
with a tilde", with a single-segment path yielding the bare key. -/
def tilde_join : List String → String
  | [] => ""
  | [key] => key
  | key :: rest => key ++ "~" ++ tilde_join rest

/-- Looks up the leaf value stored at a key path in a nested property
tree; the lookup follows dict lookups at each level. -/
def leafAtPath : List (String × PropTree) → List String → Option String
  | _, [] => none
  | props, [key] =>
    match props.lookup key with
    | some (.leaf s) => some s
    | _ => none
  | props, key :: rest =>
    match props.lookup key with
    | some (.node sub) => leafAtPath sub rest
    | _ => none

/-- The spec's concrete flattening example: the tree
`abc maps to (def1 maps to v1)`. -/
def exampleHeader : HeaderBlock :=
  { description := none,
    common_properties := some [("abc", .node [("def1", .leaf "v1")])] }

/-- Embeds the fields of an asammdf group that the reader inspects:
`group.channel_group.acq_name`, `group.channel_group.comment`,
`group.channel_group.cycles_nr` (the row count) and `group.channels`. -/
structure MdfGroup where
  acq_name : String
  comment : String
  cycles_nr : Nat
  channels : List MdfChannel

/-- Embeds the opened decoder instance (asammdf `MDF`): the group list,
the header, and the start-time string already formatted as
`YYYYMMDDHHMMSSffffff` (datetime formatting is outside the embedding). -/
structure Mdf where
  groups : List MdfGroup
  header : Option HeaderBlock
  start_time_ods : String

/-- One `file_map` entry: the open decoder and its reference count. -/
structure FileEntry where
  mdf4 : Mdf
  ref_count : Nat

/-- Embeds the mutable server state: the handle counter `connect_count`
and the two dicts `connection_map` (handle to identifier url) and
`file_map` (canonical path to file entry) as association lists.  Handles
are `Nat`; the source stringifies the counter, and the stringification is
injective, so the counter value itself is the key here.  `closed_log` is
a ghost field recording each canonical path whose decoder `close()` was
called, newest first. -/
structure ServerState where
  connect_count : Nat
  connection_map : List (Nat × String)
  file_map : List (String × FileEntry)
  closed_log : List String

/-- Dict lookup on an association list (first binding wins). -/
def mapLookup [DecidableEq α] : List (α × β) → α → Option β
  | [], _ => none
  | (k', v') :: rest, k => if k' = k then some v' else mapLookup rest k

/-- Dict assignment: replaces the first binding of the key, or appends a
new binding when the key is absent. -/
def mapSet [DecidableEq α] : List (α × β) → α → β → List (α × β)
  | [], k, v => [(k, v)]
  | (k', v') :: rest, k, v =>
    if k' = k then (k, v) :: rest else (k', v') :: mapSet rest k v

/-- Dict deletion (`del`): removes the first binding of the key. -/
def mapErase [DecidableEq α] : List (α × β) → α → List (α × β)
  | [], _ => []
  | (k', v') :: rest, k => if k' = k then rest else (k', v') :: mapErase rest k

/-- Failure outcomes of the service methods: the gRPC aborts issued by
the code, plus raw Python exceptions escaping a method (which gRPC turns
into an internal error, not a protocol-level status). -/
inductive Err where
  | keyError
  | indexError
  | notFound
  | invalidGroup
  | invalidStart
  | invalidChannel
  | countMismatch
  | unimplemented
  | notImplementedError
  | typeMismatch
  | decoderError
deriving DecidableEq, Repr

/-- Embeds `__get_id`: increments the counter, registers the identifier
under the new handle and returns the handle. -/
def get_id (identifier_url : String) (s : ServerState) : ServerState × Nat :=
  let rv := s.connect_count + 1
  ({ s with connect_count := rv,
            connection_map := mapSet s.connection_map rv identifier_url }, rv)

/-- Embeds `__open_mdf` (the body of the `with self.lock` block).  The
path resolver `__get_path` (urlparse / url2pathname composition) and the
decoder constructor `MDF(path)` are external collaborators, passed as the
functions `resolve` and `fileStore`. -/
def open_mdf (resolve : String → String) (fileStore : String → Mdf)
    (identifier_url : String) (s : ServerState) : ServerState × Nat :=
  let s1rv := get_id identifier_url s
  let s1 := s1rv.1
  let connection_url := resolve identifier_url
  let s2 := if (mapLookup s1.file_map connection_url).isNone then
      { s1 with file_map :=
          mapSet s1.file_map connection_url ⟨fileStore connection_url, 0⟩ }
    else s1
  let s3 := match mapLookup s2.file_map connection_url with
    | some entry =>
      { s2 with file_map :=
          mapSet s2.file_map connection_url ⟨entry.mdf4, entry.ref_count + 1⟩ }
    | none => s2
  (s3, s1rv.2)

/-- Embeds `__get_mdf`; a failing dict lookup is the Python `KeyError`. -/
def get_mdf (resolve : String → String) (s : ServerState) (uuid : Nat) :
    Except Err Mdf :=
  match mapLookup s.connection_map uuid with
  | none => .error .keyError
  | some identifier_url =>
    match mapLookup s.file_map (resolve identifier_url) with
    | none => .error .keyError
    | some entry => .ok entry.mdf4

/-- Embeds `__close_mdf` (the body of the `with self.lock` block): looks
up the handle's identifier and the file entry (raising `KeyError` when
absent, before any mutation), then either decrements the reference count
or closes the decoder and deletes the entry, and finally deletes the
handle binding. -/
def close_mdf (resolve : String → String) (uuid : Nat) (s : ServerState) :
    Except Err ServerState :=
  match mapLookup s.connection_map uuid with
  | none => .error .keyError
  | some identifier_url =>
    let connection_url := resolve identifier_url
    match mapLookup s.file_map connection_url with
    | none => .error .keyError
    | some entry =>
      let s1 := if entry.ref_count > 1 then
          { s with file_map :=
              mapSet s.file_map connection_url ⟨entry.mdf4, entry.ref_count - 1⟩ }
        else
          { s with file_map := mapErase s.file_map connection_url,
                   closed_log := connection_url :: s.closed_log }
      .ok { s1 with connection_map := mapErase s1.connection_map uuid }

/-- A registry operation on the service: one `Open` (reaching
`__open_mdf`) or one `Close` (reaching `__close_mdf`). -/
inductive RegOp where
  | rop_open (url : String)
  | rop_close (uuid : Nat)
deriving DecidableEq, Repr

/-- Runs a sequence of registry operations; a `Close` whose handle lookup
fails aborts the run (the Python `KeyError` propagates). -/
def runOps (resolve : String → String) (fileStore : String → Mdf) :
    ServerState → List RegOp → Option ServerState
  | s, [] => some s
  | s, .rop_open url :: rest =>
    runOps resolve fileStore (open_mdf resolve fileStore url s).1 rest
  | s, .rop_close uuid :: rest =>
    match close_mdf resolve uuid s with
    | .ok s' => runOps resolve fileStore s' rest
    | .error _ => none

/-- The state built by `__init__`: counter zero, both dicts empty. -/
def initState : ServerState :=
  { connect_count := 0, connection_map := [], file_map := [], closed_log := [] }

/-- Number of `Open` operations in a sequence. -/
def nOpens (ops : List RegOp) : Nat :=
  ops.countP fun op => match op with | .rop_open _ => true | _ => false

/-- Number of `Close` operations in a sequence. -/
def nCloses (ops : List RegOp) : Nat :=
  ops.countP fun op => match op with | .rop_close _ => true | _ => false

/-- Holds when an operation concerns the canonical path `p`: an `Open`
whose locator resolves to `p`, or any `Close` (closes address handles;
in a single-path run every live handle belongs to `p`). -/
def opOnPath (resolve : String → String) (p : String) : RegOp → Bool
  | .rop_open url => resolve url == p
  | .rop_close _ => true

/-- Registry invariant for a single-path run: every registered handle's
locator resolves to `p`; handle keys never exceed the counter; the file
map is empty exactly when no handle is live, and otherwise holds the
single entry for `p` whose reference count equals the number of live
handles; and once handles existed but none is live, the decoder close of
`p` has been logged. -/
def RegInv (resolve : String → String) (p : String) (s : ServerState) : Prop :=
  (∀ kv ∈ s.connection_map, resolve kv.2 = p) ∧
  (∀ kv ∈ s.connection_map, kv.1 ≤ s.connect_count) ∧
  ((s.file_map = [] ∧ s.connection_map.length = 0) ∨
    (∃ e, s.file_map = [(p, e)] ∧ e.ref_count = s.connection_map.length ∧
      0 < s.connection_map.length)) ∧
  (0 < s.connect_count ∧ s.connection_map.length = 0 → p ∈ s.closed_log)

/-- A trivial decoder instance for concrete runs. -/
def emptyMdf : Mdf := { groups := [], header := none, start_time_ods := "" }

/-- The identity path resolver, used in concrete runs. -/
def idResolve : String → String := fun url => url

/-- A file store yielding the trivial decoder for every path. -/
def emptyStore : String → Mdf := fun _ => emptyMdf

/-- A concrete operation sequence: two opens of the same locator followed
by a close of the first handle. -/
def c3SampleOps : List RegOp := [.rop_open "a", .rop_open "a", .rop_close 1]

/-- The state reached by running `c3SampleOps` from the initial state. -/
def c3SampleFinal : ServerState :=
  { connect_count := 2, connection_map := [(2, "a")],
    file_map := [("a", ⟨emptyMdf, 1⟩)], closed_log := [] }

/-- Python list indexing with a possibly negative index: a negative index
counts from the end of the list, and out-of-range indexing fails
(`IndexError`). -/
def pyGet (l : List α) (i : Int) : Option α :=
  if 0 ≤ i then l.get? i.toNat
  else if 0 ≤ i + l.length then l.get? (i + l.length).toNat
  else none

/-- Number of samples in a buffer. -/
def SampleData.len : SampleData → Nat
  | .numeric vals => vals.length
  | .complexes vals => vals.length
  | .strings vals => vals.length
  | .bytestrs vals => vals.length

/-- Modelled from the spec: the decoder's row-window restriction.  The
spec's collaborator interface `select(channel refs, row_range)` yields
each requested channel's samples restricted to the row window
(`record_offset`, `record_count`); slicing clamps to the available
rows. -/
def SampleData.slice (sd : SampleData) (record_offset record_count : Int) :
    SampleData :=
  match sd with
  | .numeric vals =>
    .numeric ((vals.drop record_offset.toNat).take record_count.toNat)
  | .complexes vals =>
    .complexes ((vals.drop record_offset.toNat).take record_count.toNat)
  | .strings vals =>
    .strings ((vals.drop record_offset.toNat).take record_count.toNat)
  | .bytestrs vals =>
    .bytestrs ((vals.drop record_offset.toNat).take record_count.toNat)

/-- Modelled from the spec: the per-reference resolution of
`mdf4.select` — each `(None, group id, channel index)` reference indexes
the group's channel list (Python indexing semantics) and yields that
channel's samples over the requested row window; a reference that does
not resolve makes the decoder fail. -/
def selectEach (group : MdfGroup) (record_offset record_count : Int) :
    List Int → Option (List SampleData)
  | [] => some []
  | channel_id :: rest =>
    match pyGet group.channels channel_id with
    | none => none
    | some channel =>
      match selectEach group record_offset record_count rest with
      | none => none
      | some sects =>
        some (channel.samples.slice record_offset record_count :: sects)

/-- Modelled from the spec: `mdf4.select` — resolves the requested group
and returns the referenced channels' sample buffers over the row window,
in request order. -/
def mdfSelect (mdf4 : Mdf) (group_id : Nat) (channel_ids : List Int)
    (record_offset record_count : Int) : Option (List SampleData) :=
  match mdf4.groups.get? group_id with
  | none => none
  | some group => selectEach group record_offset record_count channel_ids

/-- The typed-array variants of the ODS value container filled by
`GetValues` (boolean values and packed bytes keep their raw integer
payloads; the protobuf-level coercions are outside the embedding). -/
inductive TypedArray where
  | boolean_array (vals : List Int)
  | byte_array (vals : List Int)
  | long_array (vals : List Int)
  | longlong_array (vals : List Int)
  | float_array (vals : List Int)
  | double_array (vals : List Int)
  | string_array (vals : List String)
  | bytestr_array (vals : List (List Nat))
deriving DecidableEq, Repr

/-- Length of the typed array payload. -/
def TypedArray.arrayLen : TypedArray → Nat
  | .boolean_array vals => vals.length
  | .byte_array vals => vals.length
  | .long_array vals => vals.length
  | .longlong_array vals => vals.length
  | .float_array vals => vals.length
  | .double_array vals => vals.length
  | .string_array vals => vals.length
  | .bytestr_array vals => vals.length

/-- One per-channel result entry of `GetValues`. -/
structure ChannelValues where
  id : Int
  data_type : DataTypeEnum
  values : TypedArray
deriving DecidableEq, Repr

/-- The `GetValues` result: the group id and the per-channel arrays in
request order. -/
structure ValuesResult where
  id : Int
  channels : List ChannelValues
deriving DecidableEq, Repr

/-- Number of rows a returned channel entry represents: complex and
double-complex entries interleave two array elements per row. -/
def returnedRowCount (cv : ChannelValues) : Nat :=
  if cv.data_type = .DT_COMPLEX ∨ cv.data_type = .DT_DCOMPLEX then
    cv.values.arrayLen / 2
  else cv.values.arrayLen

/-- Embeds the per-channel encoding dispatch of `GetValues`: the `if`
chain on the normalized channel type picks the array variant (short
values go into the long array; complex values are interleaved real,
imaginary into a float or double array; the final `else` is the
`raise NotImplementedError`, reached for the date type).  A payload whose
shape does not match the branch chosen by the type models a dynamic
marshalling failure. -/
def encodeChannelValues (channel_datatype : DataTypeEnum) (channel_id : Int)
    (sect : SampleData) : Except Err ChannelValues :=
  match channel_datatype, sect with
  | .DT_BOOLEAN, .numeric vals =>
    .ok ⟨channel_id, .DT_BOOLEAN, .boolean_array vals⟩
  | .DT_BYTE, .numeric vals =>
    .ok ⟨channel_id, .DT_BYTE, .byte_array vals⟩
  | .DT_SHORT, .numeric vals =>
    .ok ⟨channel_id, .DT_SHORT, .long_array vals⟩
  | .DT_LONG, .numeric vals =>
    .ok ⟨channel_id, .DT_LONG, .long_array vals⟩
  | .DT_LONGLONG, .numeric vals =>
    .ok ⟨channel_id, .DT_LONGLONG, .longlong_array vals⟩
  | .DT_FLOAT, .numeric vals =>
    .ok ⟨channel_id, .DT_FLOAT, .float_array vals⟩
  | .DT_DOUBLE, .numeric vals =>
    .ok ⟨channel_id, .DT_DOUBLE, .double_array vals⟩
  | .DT_COMPLEX, .complexes vals =>
    .ok ⟨channel_id, .DT_COMPLEX,
      .float_array (vals.flatMap fun cv => [cv.1, cv.2])⟩
  | .DT_DCOMPLEX, .complexes vals =>
    .ok ⟨channel_id, .DT_DCOMPLEX,
      .double_array (vals.flatMap fun cv => [cv.1, cv.2])⟩
  | .DT_STRING, .strings vals =>
    .ok ⟨channel_id, .DT_STRING, .string_array vals⟩
  | .DT_BYTESTR, .bytestrs vals =>
    .ok ⟨channel_id, .DT_BYTESTR, .bytestr_array vals⟩
  | .DT_DATE, _ => .error .notImplementedError
  | _, _ => .error .typeMismatch

/-- Embeds the `ValuesRequest` message; group and channel ids and the row
window are signed integers at the protocol level. -/
structure ValuesRequest where
  handle : Nat
  group_id : Int
  channel_ids : List Int
  start : Int
  limit : Int

/-- Embeds the end-row computation of `GetValues` (`end_index`), computed
in the source and then left unused: the decoder itself clamps the row
window. -/
def end_index_calc (start limit nr_of_rows : Int) : Int :=
  if start + limit ≥ nr_of_rows then nr_of_rows else start + limit

/-- Embeds the per-channel loop of `GetValues` over the returned sample
sequences paired with their requested channel ids, in request order: the
`group.channels[channel_id]` indexing (Python semantics, `IndexError`
when unresolvable), the type inference and the encoding dispatch; the
first failure aborts the loop, as an exception aborts the Python loop. -/
def encodeLoop (group : MdfGroup) :
    List (SampleData × Int) → Except Err (List ChannelValues)
  | [] => .ok []
  | pair :: rest =>
    match pyGet group.channels pair.2 with
    | none => .error .indexError
    | some channel =>
      match encodeChannelValues (get_channel_data_type channel)
          pair.2 pair.1 with
      | .error e => .error e
      | .ok cv =>
        match encodeLoop group rest with
        | .error e => .error e
        | .ok cvs => .ok (cv :: cvs)

/-- Embeds the body of `GetValues` after the `__get_mdf` lookup:
validation of group id, start row and channel ids in source order, the
decoder `select`, the count check and the per-channel encoding loop. -/
def getValuesOnMdf (mdf4 : Mdf) (req : ValuesRequest) : Except Err ValuesResult :=
  if req.group_id < 0 ∨ (mdf4.groups.length : Int) ≤ req.group_id then
    .error .invalidGroup
  else
    match mdf4.groups.get? req.group_id.toNat with
    | none => .error .invalidGroup
    | some group =>
      if (group.cycles_nr : Int) < req.start then .error .invalidStart
      else
        let _end_index := end_index_calc req.start req.limit group.cycles_nr
        if req.channel_ids.all
            (fun channel_id => decide (channel_id < (group.channels.length : Int)))
        then
          match mdfSelect mdf4 req.group_id.toNat req.channel_ids
              req.start req.limit with
          | none => .error .decoderError
          | some data =>
            if data.length ≠ req.channel_ids.length then .error .countMismatch
            else
              match encodeLoop group (data.zip req.channel_ids) with
              | .error e => .error e
              | .ok chans => .ok ⟨req.group_id, chans⟩
        else .error .invalidChannel

/-- Embeds `GetValues`: the `__get_mdf` handle lookup followed by the
request body. -/
def getValues (resolve : String → String) (s : ServerState)
    (req : ValuesRequest) : Except Err ValuesResult :=
  match get_mdf resolve s req.handle with
  | .error e => .error e
  | .ok mdf4 => getValuesOnMdf mdf4 req

/-- Embeds the `StructureRequest` message. -/
structure StructureRequest where
  handle : Nat
  suppress_channels : Bool
  suppress_attributes : Bool
  channel_names : List String

/-- Attribute values appearing in structure results: string entries and
the long-typed independent-channel marker. -/
inductive AttrVal where
  | str (s : String)
  | long (n : Int)
deriving DecidableEq, Repr

/-- A channel entry of the structure result. -/
structure StructChannel where
  name : String
  id : Nat
  data_type : DataTypeEnum
  unit_string : String
  attributes : List (String × AttrVal)
deriving DecidableEq, Repr

/-- A group entry of the structure result. -/
structure StructGroup where
  name : String
  id : Nat
  total_number_of_channels : Nat
  number_of_rows : Nat
  attributes : List (String × AttrVal)
  channels : List StructChannel
deriving DecidableEq, Repr

/-- The structure result: file name, file attributes and groups. -/
structure StructureResult where
  name : String
  attributes : List (String × AttrVal)
  groups : List StructGroup
deriving DecidableEq, Repr

/-- Embeds the per-channel part of the `GetStructure` loop: name, index as
id, normalized type, unit, optional description, and the independent
marker on channel index 0. -/
def buildChannel (channel_index : Nat) (channel : MdfChannel) : StructChannel :=
  { name := channel.name, id := channel_index,
    data_type := get_channel_data_type channel,
    unit_string := channel.unit,
    attributes :=
      (match channel.comment with
       | some cmt => if cmt ≠ "" then [("description", .str cmt)] else []
       | none => []) ++
      (if channel_index = 0 then [("independent", .long 1)] else []) }

/-- Embeds the per-group part of the `GetStructure` loop. -/
def buildGroup (group_index : Nat) (start_time_ods : String)
    (group : MdfGroup) : StructGroup :=
  { name := group.acq_name, id := group_index,
    total_number_of_channels := group.channels.length,
    number_of_rows := group.cycles_nr,
    attributes := [("description", .str group.comment),
                   ("measurement_begin", .str start_time_ods)],
    channels := group.channels.enum.map fun p => buildChannel p.1 p.2 }

/-- Embeds `GetStructure`: the unsupported-feature check, the
`connection_map` lookup (a raw dict access: `KeyError` when absent), the
`__get_mdf` lookup, and the structure assembly.  The file-name extraction
`Path(url).name` is an external collaborator passed as `baseName`. -/
def getStructure (resolve : String → String) (baseName : String → String)
    (s : ServerState) (req : StructureRequest) : Except Err StructureResult :=
  if req.suppress_channels ∨ req.suppress_attributes ∨
      req.channel_names.length ≠ 0 then
    .error .unimplemented
  else
    match mapLookup s.connection_map req.handle with
    | none => .error .keyError
    | some identifier_url =>
      match get_mdf resolve s req.handle with
      | .error e => .error e
      | .ok mdf4 =>
        .ok { name := baseName identifier_url,
              attributes := ("start_time", .str mdf4.start_time_ods) ::
                (add_file_header mdf4.header).map fun kv => (kv.1, .str kv.2),
              groups := mdf4.groups.enum.map fun p =>
                buildGroup p.1 mdf4.start_time_ods p.2 }

/-- A concrete channel of kind 0 at 32 bits (longlong) with three
samples. -/
def sampleChannelLonglong : MdfChannel :=
  { name := "ch0", unit := "V", comment := none, data_type := 0,
    bit_count := 32, conversion := none, samples := .numeric [10, 20, 30] }

/-- A concrete channel of kind 15 at 64 bits (complex) with three
samples. -/
def sampleChannelComplex : MdfChannel :=
  { name := "ch1", unit := "", comment := none, data_type := 15,
    bit_count := 64, conversion := none,
    samples := .complexes [(1, 2), (3, 4),
      (5, 6)] }

/-- A concrete channel of kind 13 (CANopen date) with three samples. -/
def sampleChannelDate : MdfChannel :=
  { name := "ch2", unit := "", comment := none, data_type := 13,
    bit_count := 56, conversion := none, samples := .numeric [0, 0, 0] }

/-- A concrete channel of kind 2 at 16 bits (short) with three samples. -/
def sampleChannelShort : MdfChannel :=
  { name := "ch3", unit := "", comment := none, data_type := 2,
    bit_count := 16, conversion := none, samples := .numeric [7, 8, 9] }

/-- A concrete group with three rows and four channels. -/
def sampleGroup : MdfGroup :=
  { acq_name := "g", comment := "", cycles_nr := 3,
    channels := [sampleChannelLonglong, sampleChannelComplex,
      sampleChannelDate, sampleChannelShort] }

/-- A concrete one-group decoder instance. -/
def sampleMdf : Mdf :=
  { groups := [sampleGroup],
    header := none, start_time_ods := "20240101000000000000" }

/-- A server state holding one open handle (uuid 1) for locator `a`,
resolved by the identity resolver to the sample decoder. -/
def sampleState : ServerState :=
  { connect_count := 1, connection_map := [(1, "a")],
    file_map := [("a", ⟨sampleMdf, 1⟩)], closed_log := [] }

/-- A request for the longlong channel with a limit beyond the row
count. -/
def c4Req : ValuesRequest :=
  { handle := 1, group_id := 0, channel_ids := [0], start := 0, limit := 5 }

/-- The result of `c4Req`: three rows, not five. -/
def c4Res : ValuesResult :=
  ⟨0, [⟨0, .DT_LONGLONG, .longlong_array [10, 20, 30]⟩]⟩

/-- A request with an out-of-range channel id (4 channels exist). -/
def c5ReqBig : ValuesRequest :=
  { handle := 1, group_id := 0, channel_ids := [5], start := 0, limit := 5 }

/-- A request with a negative channel id. -/
def c5NegReq : ValuesRequest :=
  { handle := 1, group_id := 0, channel_ids := [-1], start := 0, limit := 5 }

/-- A request for the complex channel. -/
def c6Req : ValuesRequest :=
  { handle := 1, group_id := 0, channel_ids := [1], start := 0, limit := 5 }

/-- A request for the date channel. -/
def c8Req : ValuesRequest :=
  { handle := 1, group_id := 0, channel_ids := [2], start := 0, limit := 5 }

/-- A request for the short channel. -/
def c9Req : ValuesRequest :=
  { handle := 1, group_id := 0, channel_ids := [3], start := 0, limit := 5 }

/-- A server state with one live handle on the trivial decoder, for the
close-twice scenario. -/
def c10State : ServerState :=
  { connect_count := 1, connection_map := [(1, "a")],
    file_map := [("a", ⟨emptyMdf, 1⟩)], closed_log := [] }

/-- The state after closing handle 1 of `c10State`. -/
def c10Closed : ServerState :=
  { connect_count := 1, connection_map := [], file_map := [],
    closed_log := ["a"] }

/-- The channel-values entry returned for the complex channel of
`c6Req`. -/
def c6Cv : ChannelValues :=
  ⟨1, .DT_COMPLEX, .float_array [1, 2, 3, 4, 5, 6]⟩

/-- The complex samples of the sample channel within the `c6Req` row
window. -/
def c6Svals : List (Int × Int) := [(1, 2), (3, 4), (5, 6)]

/-- The channel-values entry returned for the short channel of
`c9Req`. -/
def c9Cv : ChannelValues := ⟨3, .DT_SHORT, .long_array [7, 8, 9]⟩

-- Theorems and supporting lemmas follow.

lemma base_w_high (k w : Nat) (hw : 130 ≤ w) :
    get_channel_data_type_base k w = get_channel_data_type_base k 130 := by
  have h1 : ¬(1 = w) := by omega
  have h2 : ¬(w ≤ 8) := by omega
  have h3 : ¬(w ≤ 15) := by omega
  have h4 : ¬(w ≤ 31) := by omega
  have h5 : ¬(w ≤ 63) := by omega
  have h6 : ¬(w ≤ 64) := by omega
  have h7 : ¬(w ≤ 16) := by omega
  have h8 : ¬(w ≤ 32) := by omega
  have h9 : ¬(w ≤ 128) := by omega
  simp [get_channel_data_type_base, base_unsigned_integer, base_signed_integer,
    base_floating_point, base_string_kind, base_bytestr_kind, base_date_kind,
    base_complex_kind, h1, h2, h3, h4, h5, h6, h7, h8, h9]

lemma spec_w_high (k w : Nat) (hw : 130 ≤ w) :
    spec_base_type k w = spec_base_type k 130 := by
  have h1 : ¬(w = 1) := by omega
  have h2 : ¬(w ≤ 8) := by omega
  have h3 : ¬(w ≤ 15) := by omega
  have h4 : ¬(w ≤ 31) := by omega
  have h5 : ¬(w ≤ 63) := by omega
  have h6 : ¬(w = 64) := by omega
  have h7 : ¬(w ≤ 16) := by omega
  have h8 : ¬(w ≤ 32) := by omega
  have h9 : ¬(w ≤ 64) := by omega
  have h10 : ¬(w ≤ 128) := by omega
  simp [spec_base_type, h1, h2, h3, h4, h5, h6, h7, h8, h9, h10]

lemma base_k_high (k w : Nat) (hk : 18 ≤ k) :
    get_channel_data_type_base k w = .DT_DOUBLE := by
  have h1 : ¬(k ≤ 1) := by omega
  have h2 : ¬(k ≤ 3) := by omega
  have h3 : ¬(k ≤ 5) := by omega
  have h4 : ¬(k ≤ 9) := by omega
  have h5 : ¬(k ≤ 12) := by omega
  have h6 : ¬(k ≤ 14) := by omega
  have h7 : ¬(k ≤ 16) := by omega
  simp [get_channel_data_type_base, base_unsigned_integer, base_signed_integer,
    base_floating_point, base_string_kind, base_bytestr_kind, base_date_kind,
    base_complex_kind, h1, h2, h3, h4, h5, h6, h7]

lemma spec_k_high (k w : Nat) (hk : 18 ≤ k) :
    spec_base_type k w = .DT_DOUBLE := by
  have h1 : ¬(k ≤ 1) := by omega
  have h2 : ¬(k ≤ 3) := by omega
  have h3 : ¬(k ≤ 5) := by omega
  have h4 : ¬(k ≤ 9) := by omega
  have h5 : ¬(k ≤ 12) := by omega
  have h6 : ¬(k ≤ 14) := by omega
  have h7 : ¬(k ≤ 16) := by omega
  simp [spec_base_type, h1, h2, h3, h4, h5, h6, h7]

lemma base_type_eq_spec_bounded :
    ∀ k < 18, ∀ w < 131, get_channel_data_type_base k w = spec_base_type k w := by
  decide

/-- C1: for every channel descriptor `(kind, bit width)`, Stage 1 of the
type inference engine (`__get_channel_data_type_base`) returns exactly the
normalized type of the spec's base-type table, with rows evaluated
top-to-bottom per kind group and the first match taken (so bit width 8 for
unsigned-integer kinds lands in the byte row), unsigned-integer kinds at
bit width 64 mapped to double, and double returned for any unmatched
pair. -/
theorem c1_base_type_matches_spec_table (kind width : Nat) :
    get_channel_data_type_base kind width = spec_base_type kind width := by
  by_cases hk : kind < 18
  · by_cases hw : width < 131
    · exact base_type_eq_spec_bounded kind hk width hw
    · rw [base_w_high kind width (by omega), spec_w_high kind width (by omega)]
      exact base_type_eq_spec_bounded kind hk 130 (by omega)
  · rw [base_k_high kind width (by omega), spec_k_high kind width (by omega)]

/-- C2 counterexample: a channel whose Stage-1 base type is string and
whose conversion type is 1 (linear, one of the five numeric conversions)
keeps type string — the numeric-conversion override is not applied when
the base type is string, contradicting the claim that the override applies
regardless of the Stage-1 base type. -/
theorem c2_counterexample :
    get_channel_data_type stringLinearChannel = .DT_STRING ∧
    get_channel_data_type stringLinearChannel ≠ .DT_DOUBLE := by
  constructor <;>
    simp [get_channel_data_type, stringLinearChannel, get_conversion_data_type,
      get_channel_data_type_base, base_unsigned_integer, base_signed_integer,
      base_floating_point, base_string_kind, base_bytestr_kind, base_date_kind,
      base_complex_kind]

/-- C2 (amended): for every channel with a present conversion whose
conversion type is one of the five numeric conversions (types 1-5), the
type is overridden to double exactly when the Stage-1 base type is not
string; when the base type is string, a type-1-5 conversion leaves the
type string (only the type-9 text-to-value look-up overrides string). -/
theorem c2_numeric_conversion_override (channel : MdfChannel)
    (conv : ChannelConversion) (hc : channel.conversion = some conv)
    (ht : conv.conversion_type ∈ ([1, 2, 3, 4, 5] : List Nat)) :
    (get_channel_data_type_base channel.data_type channel.bit_count ≠ .DT_STRING →
      get_channel_data_type channel = .DT_DOUBLE) ∧
    (get_channel_data_type_base channel.data_type channel.bit_count = .DT_STRING →
      get_channel_data_type channel = .DT_STRING) := by
  cases conv with
  | mk ctype flags refblocks =>
    simp only [ChannelConversion.conversion_type] at ht
    unfold get_channel_data_type
    rw [hc]
    constructor
    · intro hne
      simp only [Option.isSome_some, if_pos]
      unfold get_conversion_data_type
      rw [if_neg (by simpa using Ne.symm hne), if_pos ht]
    · intro heq
      simp only [Option.isSome_some, if_pos]
      unfold get_conversion_data_type
      have h9 : ¬(9 = ctype) := by
        intro hc
        rw [← hc] at ht
        exact absurd ht (by decide)
      rw [if_pos heq.symm, if_neg h9, heq]

/-- Witness for C2 (amended) at a concrete channel: kind 0 at 32 bits has
base type longlong, and the type-2 conversion overrides it to double. -/
theorem c2_numeric_conversion_override_witness :
    get_channel_data_type numericPolyChannel = .DT_DOUBLE :=
  (c2_numeric_conversion_override numericPolyChannel (.mk 2 0 none) rfl
    (by decide)).1 (by decide)

lemma add_attributes_mem_of_leafAtPath :
    ∀ (path : List String) (props : List (String × PropTree)) (pfx : Option String)
      (v : String), leafAtPath props path = some v →
      ((match pfx with
        | some p => p ++ "~" ++ tilde_join path
        | none => tilde_join path), v) ∈ add_attributes pfx props := by
  intro path
  induction path with
  | nil => intro props pfx v h; simp [leafAtPath] at h
  | cons key rest ih =>
    intro props pfx v h
    induction props with
    | nil => cases rest <;> simp [leafAtPath, List.lookup] at h
    | cons kv props' ihp =>
      obtain ⟨k', t'⟩ := kv
      by_cases hk : key = k'
      · subst hk
        cases rest with
        | nil =>
          cases t' with
          | leaf s =>
            simp [leafAtPath, List.lookup] at h
            subst h
            cases pfx <;> simp [add_attributes, tilde_join]
          | node sub =>
            simp [leafAtPath, List.lookup] at h
        | cons r rs =>
          cases t' with
          | leaf s =>
            simp [leafAtPath, List.lookup] at h
          | node sub =>
            simp only [leafAtPath, List.lookup, beq_self_eq_true] at h
            have hm := ih sub (some (match pfx with
              | some p => p ++ "~" ++ key
              | none => key)) v h
            cases pfx with
            | none =>
              unfold add_attributes
              simp only [List.mem_append]
              exact Or.inl (by simpa [tilde_join] using hm)
            | some p =>
              unfold add_attributes
              simp only [List.mem_append]
              refine Or.inl ?_
              have : p ++ "~" ++ tilde_join (key :: r :: rs)
                  = (p ++ "~" ++ key) ++ "~" ++ tilde_join (r :: rs) := by
                simp [tilde_join, String.append_assoc]
              rw [this]
              simpa using hm
      · have hne : (key == k') = false := by simp [hk]
        have h' : leafAtPath props' (key :: rest) = some v := by
          cases rest <;> simpa [leafAtPath, List.lookup, hne] using h
        have hm := ihp h'
        unfold add_attributes
        simp only [List.mem_append]
        exact Or.inr hm

/-- C7: every leaf of the nested common-properties tree of the file header
appears among the attributes produced by `__add_file_header` under the key
formed by joining its key path with a tilde; a top-level leaf (singleton
path) appears under its own key with no separator. -/
theorem c7_attribute_flattening (header : HeaderBlock)
    (props : List (String × PropTree)) (path : List String) (v : String)
    (hcp : header.common_properties = some props)
    (h : leafAtPath props path = some v) :
    (tilde_join path, v) ∈ add_file_header (some header) := by
  have hm := add_attributes_mem_of_leafAtPath path props none v h
  simp only [add_file_header, hcp, List.mem_append]
  exact Or.inr hm

/-- Witness for C7 at the spec's example: the nested tree produces the
attribute key `abc~def1` with value `v1`. -/
theorem c7_attribute_flattening_witness :
    (tilde_join ["abc", "def1"], "v1") ∈ add_file_header (some exampleHeader) :=
  c7_attribute_flattening exampleHeader [("abc", .node [("def1", .leaf "v1")])]
    ["abc", "def1"] "v1" rfl rfl

lemma mapLookup_mem [DecidableEq α] {m : List (α × β)} {k : α} {v : β}
    (h : mapLookup m k = some v) : (k, v) ∈ m := by
  induction m with
  | nil => simp [mapLookup] at h
  | cons kv rest ih =>
    obtain ⟨k', v'⟩ := kv
    by_cases hk : k' = k
    · subst hk
      simp [mapLookup] at h
      subst h
      exact List.mem_cons_self _ _
    · simp [mapLookup, hk] at h
      exact List.mem_cons_of_mem _ (ih h)

lemma mapLookup_eq_none [DecidableEq α] {m : List (α × β)} {k : α}
    (h : ∀ kv ∈ m, kv.1 ≠ k) : mapLookup m k = none := by
  induction m with
  | nil => rfl
  | cons kv rest ih =>
    obtain ⟨k', v'⟩ := kv
    have hk : k' ≠ k := h (k', v') (List.mem_cons_self _ _)
    simp only [mapLookup, if_neg hk]
    exact ih fun x hx => h x (List.mem_cons_of_mem _ hx)

lemma mapLookup_mapSet_self [DecidableEq α] (m : List (α × β)) (k : α) (v : β) :
    mapLookup (mapSet m k v) k = some v := by
  induction m with
  | nil => simp [mapSet, mapLookup]
  | cons kv rest ih =>
    obtain ⟨k', v'⟩ := kv
    by_cases hk : k' = k
    · simp [mapSet, mapLookup, hk]
    · simp [mapSet, mapLookup, hk, ih]

lemma mem_mapSet [DecidableEq α] {m : List (α × β)} {k : α} {v : β} {x : α × β}
    (hx : x ∈ mapSet m k v) : x = (k, v) ∨ x ∈ m := by
  induction m with
  | nil => simpa [mapSet] using hx
  | cons kv rest ih =>
    obtain ⟨k', v'⟩ := kv
    by_cases hk : k' = k
    · simp only [mapSet, if_pos hk, List.mem_cons] at hx
      rcases hx with h | h
      · exact Or.inl h
      · exact Or.inr (List.mem_cons_of_mem _ h)
    · simp only [mapSet, if_neg hk, List.mem_cons] at hx
      rcases hx with h | h
      · exact Or.inr (by simp [h])
      · rcases ih h with h' | h'
        · exact Or.inl h'
        · exact Or.inr (List.mem_cons_of_mem _ h')

lemma mapSet_length_absent [DecidableEq α] {m : List (α × β)} {k : α} (v : β)
    (h : mapLookup m k = none) : (mapSet m k v).length = m.length + 1 := by
  induction m with
  | nil => rfl
  | cons kv rest ih =>
    obtain ⟨k', v'⟩ := kv
    by_cases hk : k' = k
    · simp [mapLookup, hk] at h
    · simp only [mapLookup, if_neg hk] at h
      simp [mapSet, if_neg hk, ih h]

lemma mem_mapErase [DecidableEq α] {m : List (α × β)} {k : α} {x : α × β}
    (hx : x ∈ mapErase m k) : x ∈ m := by
  induction m with
  | nil => simpa [mapErase] using hx
  | cons kv rest ih =>
    obtain ⟨k', v'⟩ := kv
    by_cases hk : k' = k
    · simp only [mapErase, if_pos hk] at hx
      exact List.mem_cons_of_mem _ hx
    · simp only [mapErase, if_neg hk, List.mem_cons] at hx
      rcases hx with h | h
      · simp [h]
      · exact List.mem_cons_of_mem _ (ih h)

lemma mapErase_length [DecidableEq α] {m : List (α × β)} {k : α} {v : β}
    (h : mapLookup m k = some v) : (mapErase m k).length + 1 = m.length := by
  induction m with
  | nil => simp [mapLookup] at h
  | cons kv rest ih =>
    obtain ⟨k', v'⟩ := kv
    by_cases hk : k' = k
    · simp [mapErase, hk]
    · simp only [mapLookup, if_neg hk] at h
      simp [mapErase, if_neg hk, ih h]

lemma mapLookup_mapErase_self [DecidableEq α] {m : List (α × β)} (k : α)
    (hnd : (m.map Prod.fst).Nodup) : mapLookup (mapErase m k) k = none := by
  induction m with
  | nil => rfl
  | cons kv rest ih =>
    obtain ⟨k', v'⟩ := kv
    simp only [List.map_cons, List.nodup_cons] at hnd
    by_cases hk : k' = k
    · subst hk
      simp only [mapErase, if_pos rfl]
      exact mapLookup_eq_none fun x hx hcontra => hnd.1 (by
        rw [← hcontra]
        exact List.mem_map_of_mem Prod.fst hx)
    · simp only [mapErase, if_neg hk, mapLookup, if_neg hk]
      exact ih hnd.2

lemma open_mdf_eq_absent (resolve : String → String) (fileStore : String → Mdf)
    (url : String) (s : ServerState)
    (h : mapLookup s.file_map (resolve url) = none) :
    open_mdf resolve fileStore url s =
      ({ connect_count := s.connect_count + 1,
         connection_map := mapSet s.connection_map (s.connect_count + 1) url,
         file_map := mapSet (mapSet s.file_map (resolve url)
             ⟨fileStore (resolve url), 0⟩) (resolve url)
             ⟨fileStore (resolve url), 0 + 1⟩,
         closed_log := s.closed_log }, s.connect_count + 1) := by
  simp only [open_mdf, get_id, h, Option.isNone_none, if_true,
    mapLookup_mapSet_self]

lemma open_mdf_eq_present (resolve : String → String) (fileStore : String → Mdf)
    (url : String) (s : ServerState) (e : FileEntry)
    (h : mapLookup s.file_map (resolve url) = some e) :
    open_mdf resolve fileStore url s =
      ({ connect_count := s.connect_count + 1,
         connection_map := mapSet s.connection_map (s.connect_count + 1) url,
         file_map := mapSet s.file_map (resolve url) ⟨e.mdf4, e.ref_count + 1⟩,
         closed_log := s.closed_log }, s.connect_count + 1) := by
  simp only [open_mdf, get_id, h, Option.isNone_some, if_false, Bool.false_eq_true]

lemma close_mdf_eq_dec (resolve : String → String) (uuid : Nat)
    (s : ServerState) (url : String) (e : FileEntry)
    (hc : mapLookup s.connection_map uuid = some url)
    (hf : mapLookup s.file_map (resolve url) = some e)
    (hrc : e.ref_count > 1) :
    close_mdf resolve uuid s = .ok
      { connect_count := s.connect_count,
        connection_map := mapErase s.connection_map uuid,
        file_map := mapSet s.file_map (resolve url) ⟨e.mdf4, e.ref_count - 1⟩,
        closed_log := s.closed_log } := by
  simp only [close_mdf, hc, hf, if_pos hrc]

lemma close_mdf_eq_del (resolve : String → String) (uuid : Nat)
    (s : ServerState) (url : String) (e : FileEntry)
    (hc : mapLookup s.connection_map uuid = some url)
    (hf : mapLookup s.file_map (resolve url) = some e)
    (hrc : ¬ e.ref_count > 1) :
    close_mdf resolve uuid s = .ok
      { connect_count := s.connect_count,
        connection_map := mapErase s.connection_map uuid,
        file_map := mapErase s.file_map (resolve url),
        closed_log := resolve url :: s.closed_log } := by
  simp only [close_mdf, hc, hf, if_neg hrc]

lemma open_mdf_inv (resolve : String → String) (fileStore : String → Mdf)
    (p url : String) (s : ServerState) (hurl : resolve url = p)
    (hinv : RegInv resolve p s) :
    RegInv resolve p (open_mdf resolve fileStore url s).1 ∧
    (open_mdf resolve fileStore url s).1.connection_map.length
      = s.connection_map.length + 1 ∧
    (open_mdf resolve fileStore url s).1.connect_count = s.connect_count + 1 := by
  obtain ⟨hres, hkeys, hfm, hlog⟩ := hinv
  have hfresh : mapLookup s.connection_map (s.connect_count + 1) = none :=
    mapLookup_eq_none fun kv hkv => by have := hkeys kv hkv; omega
  have hlen : (mapSet s.connection_map (s.connect_count + 1) url).length
      = s.connection_map.length + 1 := mapSet_length_absent _ hfresh
  have hresNew : ∀ kv ∈ mapSet s.connection_map (s.connect_count + 1) url,
      resolve kv.2 = p := by
    intro kv hkv
    rcases mem_mapSet hkv with h | h
    · rw [h]; exact hurl
    · exact hres kv h
  have hkeysNew : ∀ kv ∈ mapSet s.connection_map (s.connect_count + 1) url,
      kv.1 ≤ s.connect_count + 1 := by
    intro kv hkv
    rcases mem_mapSet hkv with h | h
    · rw [h]
    · have := hkeys kv h; omega
  rcases hfm with ⟨hempty, hzero⟩ | ⟨e, hone, herc, hpos⟩
  · have habs : mapLookup s.file_map (resolve url) = none := by
      rw [hempty]; rfl
    rw [open_mdf_eq_absent resolve fileStore url s habs]
    dsimp only
    refine ⟨⟨hresNew, hkeysNew, Or.inr ⟨⟨fileStore (resolve url), 0 + 1⟩, ?_, ?_, ?_⟩,
      ?_⟩, hlen, rfl⟩
    · rw [hempty, hurl]; simp [mapSet]
    · dsimp only; omega
    · dsimp only; omega
    · dsimp only
      intro hcontra
      omega
  · have hpres : mapLookup s.file_map (resolve url) = some e := by
      rw [hone, hurl]; simp [mapLookup]
    rw [open_mdf_eq_present resolve fileStore url s e hpres]
    dsimp only
    refine ⟨⟨hresNew, hkeysNew, Or.inr ⟨⟨e.mdf4, e.ref_count + 1⟩, ?_, ?_, ?_⟩,
      ?_⟩, hlen, rfl⟩
    · rw [hone, hurl]; simp [mapSet]
    · dsimp only; omega
    · dsimp only; omega
    · dsimp only
      intro hcontra
      omega

lemma close_mdf_inv (resolve : String → String) (p : String) (uuid : Nat)
    (s s' : ServerState) (hinv : RegInv resolve p s)
    (h : close_mdf resolve uuid s = .ok s') :
    RegInv resolve p s' ∧
    s'.connection_map.length + 1 = s.connection_map.length ∧
    s'.connect_count = s.connect_count := by
  obtain ⟨hres, hkeys, hfm, hlog⟩ := hinv
  cases hc : mapLookup s.connection_map uuid with
  | none => rw [close_mdf, hc] at h; exact absurd h (by simp)
  | some url =>
    have hurl : resolve url = p := hres (uuid, url) (mapLookup_mem hc)
    rcases hfm with ⟨hempty, hzero⟩ | ⟨e, hone, herc, hpos⟩
    · have habs : mapLookup s.file_map (resolve url) = none := by
        rw [hempty]; rfl
      rw [close_mdf, hc] at h
      simp only [habs] at h
      exact absurd h (by simp)
    · have hpres : mapLookup s.file_map (resolve url) = some e := by
        rw [hone, hurl]; simp [mapLookup]
      have hcm := mapErase_length hc
      have hresE : ∀ kv ∈ mapErase s.connection_map uuid, resolve kv.2 = p :=
        fun kv hkv => hres kv (mem_mapErase hkv)
      have hkeysE : ∀ kv ∈ mapErase s.connection_map uuid, kv.1 ≤ s.connect_count :=
        fun kv hkv => hkeys kv (mem_mapErase hkv)
      by_cases hrc : e.ref_count > 1
      · rw [close_mdf_eq_dec resolve uuid s url e hc hpres hrc] at h
        injection h with h
        subst h
        dsimp only
        refine ⟨⟨hresE, hkeysE, Or.inr ⟨⟨e.mdf4, e.ref_count - 1⟩, ?_, ?_, ?_⟩, ?_⟩,
          ?_, rfl⟩
        · rw [hone, hurl]; simp [mapSet]
        · dsimp only; omega
        · dsimp only; omega
        · dsimp only
          intro hcontra
          omega
        · dsimp only; omega
      · rw [close_mdf_eq_del resolve uuid s url e hc hpres hrc] at h
        injection h with h
        subst h
        dsimp only
        have hfdel : mapErase s.file_map (resolve url) = [] := by
          rw [hone, hurl]; simp [mapErase]
        refine ⟨⟨hresE, hkeysE, Or.inl ⟨hfdel, ?_⟩, ?_⟩, ?_, rfl⟩
        · dsimp only; omega
        · dsimp only
          intro hcontra
          rw [hurl]
          exact List.mem_cons_self _ _
        · dsimp only; omega

lemma nOpens_cons_open (url : String) (rest : List RegOp) :
    nOpens (.rop_open url :: rest) = nOpens rest + 1 := by
  simp [nOpens, List.countP_cons]

lemma nOpens_cons_close (uuid : Nat) (rest : List RegOp) :
    nOpens (.rop_close uuid :: rest) = nOpens rest := by
  simp [nOpens, List.countP_cons]

lemma nCloses_cons_open (url : String) (rest : List RegOp) :
    nCloses (.rop_open url :: rest) = nCloses rest := by
  simp [nCloses, List.countP_cons]

lemma nCloses_cons_close (uuid : Nat) (rest : List RegOp) :
    nCloses (.rop_close uuid :: rest) = nCloses rest + 1 := by
  simp [nCloses, List.countP_cons]

lemma runOps_inv (resolve : String → String) (fileStore : String → Mdf)
    (p : String) :
    ∀ (ops : List RegOp) (s s' : ServerState),
      (∀ op ∈ ops, opOnPath resolve p op = true) →
      RegInv resolve p s →
      runOps resolve fileStore s ops = some s' →
      RegInv resolve p s' ∧
      s'.connection_map.length + nCloses ops
        = s.connection_map.length + nOpens ops ∧
      s'.connect_count = s.connect_count + nOpens ops := by
  intro ops
  induction ops with
  | nil =>
    intro s s' _ hinv hrun
    simp only [runOps, Option.some_inj] at hrun
    subst hrun
    simp [nOpens, nCloses, hinv]
  | cons op rest ih =>
    intro s s' hops hinv hrun
    cases op with
    | rop_open url =>
      have hurl : resolve url = p := by
        have := hops _ (List.mem_cons_self _ _)
        simpa [opOnPath] using this
      simp only [runOps] at hrun
      obtain ⟨hinv1, hlen1, hcc1⟩ := open_mdf_inv resolve fileStore p url s hurl hinv
      obtain ⟨hinv2, hlen2, hcc2⟩ :=
        ih _ s' (fun o ho => hops o (List.mem_cons_of_mem _ ho)) hinv1 hrun
      refine ⟨hinv2, ?_, ?_⟩
      · rw [nOpens_cons_open, nCloses_cons_open]; omega
      · rw [nOpens_cons_open]; omega
    | rop_close uuid =>
      simp only [runOps] at hrun
      cases hclose : close_mdf resolve uuid s with
      | error e => rw [hclose] at hrun; exact absurd hrun (by simp)
      | ok s1 =>
        rw [hclose] at hrun
        simp only at hrun
        obtain ⟨hinv1, hlen1, hcc1⟩ := close_mdf_inv resolve p uuid s s1 hinv hclose
        obtain ⟨hinv2, hlen2, hcc2⟩ :=
          ih s1 s' (fun o ho => hops o (List.mem_cons_of_mem _ ho)) hinv1 hrun
        refine ⟨hinv2, ?_, ?_⟩
        · rw [nOpens_cons_close, nCloses_cons_close]; omega
        · rw [nOpens_cons_close]; omega

/-- C3: after any successful sequence of `N` opens and `M` closes whose
locators all resolve to the same canonical path `p`, starting from the
initial state, `M` never exceeds `N`; the file-map entry for `p` exists
iff `N - M > 0`; when it exists its reference count is exactly `N - M`;
and when `N - M` has reached zero (with `N > 0`) the decoder for `p` has
been closed. -/
theorem c3_refcount_invariant (resolve : String → String)
    (fileStore : String → Mdf) (p : String) (ops : List RegOp)
    (s : ServerState)
    (hops : ∀ op ∈ ops, opOnPath resolve p op = true)
    (hrun : runOps resolve fileStore initState ops = some s) :
    nCloses ops ≤ nOpens ops ∧
    ((mapLookup s.file_map p).isSome ↔ 0 < nOpens ops - nCloses ops) ∧
    (∀ e, mapLookup s.file_map p = some e →
      e.ref_count = nOpens ops - nCloses ops) ∧
    (0 < nOpens ops ∧ nOpens ops = nCloses ops → p ∈ s.closed_log) := by
  have hinit : RegInv resolve p initState := by
    refine ⟨?_, ?_, Or.inl ⟨rfl, rfl⟩, ?_⟩ <;> simp [initState]
  obtain ⟨⟨hres, hkeys, hfm, hlog⟩, hlen, hcc⟩ :=
    runOps_inv resolve fileStore p ops initState s hops hinit hrun
  have hlen0 : s.connection_map.length + nCloses ops = nOpens ops := by
    simpa [initState] using hlen
  have hcc0 : s.connect_count = nOpens ops := by
    simpa [initState] using hcc
  have hMN : nCloses ops ≤ nOpens ops := by omega
  refine ⟨hMN, ?_, ?_, ?_⟩
  · rcases hfm with ⟨hempty, hzero⟩ | ⟨e, hone, herc, hpos⟩
    · rw [hempty]
      simp [mapLookup]
      omega
    · rw [hone]
      simp [mapLookup]
      omega
  · intro e he
    rcases hfm with ⟨hempty, hzero⟩ | ⟨e', hone, herc, hpos⟩
    · rw [hempty] at he
      simp [mapLookup] at he
    · rw [hone] at he
      simp [mapLookup] at he
      subst he
      omega
  · intro ⟨hNpos, hNM⟩
    apply hlog
    constructor
    · omega
    · omega

/-- Witness for C3 at the concrete run `c3SampleOps` (two opens of
locator `a`, then one close): the entry survives with reference count
one. -/
theorem c3_refcount_invariant_witness :
    nCloses c3SampleOps ≤ nOpens c3SampleOps ∧
    ((mapLookup c3SampleFinal.file_map "a").isSome ↔
      0 < nOpens c3SampleOps - nCloses c3SampleOps) ∧
    (∀ e, mapLookup c3SampleFinal.file_map "a" = some e →
      e.ref_count = nOpens c3SampleOps - nCloses c3SampleOps) ∧
    (0 < nOpens c3SampleOps ∧ nOpens c3SampleOps = nCloses c3SampleOps →
      "a" ∈ c3SampleFinal.closed_log) :=
  c3_refcount_invariant idResolve emptyStore "a" c3SampleOps c3SampleFinal
    (by decide) (by rfl)

lemma pyGet_mem {l : List α} {i : Int} {x : α} (h : pyGet l i = some x) :
    x ∈ l := by
  unfold pyGet at h
  split_ifs at h <;> exact List.get?_mem h

lemma slice_len (sd : SampleData) (record_offset record_count : Int) :
    (sd.slice record_offset record_count).len
      = min record_count.toNat (sd.len - record_offset.toNat) := by
  cases sd <;> simp [SampleData.slice, SampleData.len]

lemma interleave_length (l : List (Int × Int)) :
    (l.flatMap fun p => [p.1, p.2]).length = 2 * l.length := by
  induction l with
  | nil => rfl
  | cons p t ih => simp only [List.flatMap_cons, List.length_append,
      List.length_cons, List.length_nil, ih]; omega

lemma interleave_get_even (l : List (Int × Int)) :
    ∀ k, (l.flatMap fun p => [p.1, p.2]).get? (2 * k)
      = (l.get? k).map Prod.fst := by
  induction l with
  | nil => intro k; simp
  | cons p t ih =>
    intro k
    cases k with
    | zero => simp [List.flatMap_cons]
    | succ n =>
      have h2 : 2 * (n + 1) = (2 * n) + 1 + 1 := by omega
      simp only [List.flatMap_cons, List.cons_append, List.nil_append, h2,
        List.get?_cons_succ, List.get?_cons_zero]
      exact ih n

lemma interleave_get_odd (l : List (Int × Int)) :
    ∀ k, (l.flatMap fun p => [p.1, p.2]).get? (2 * k + 1)
      = (l.get? k).map Prod.snd := by
  induction l with
  | nil => intro k; simp
  | cons p t ih =>
    intro k
    cases k with
    | zero => simp [List.flatMap_cons]
    | succ n =>
      have h2 : 2 * (n + 1) + 1 = (2 * n + 1) + 1 + 1 := by omega
      simp only [List.flatMap_cons, List.cons_append, List.nil_append, h2,
        List.get?_cons_succ, List.get?_cons_zero]
      exact ih n

lemma zip_get? {l1 : List α} {l2 : List β} {j : Nat} {a : α} {b : β}
    (h1 : l1.get? j = some a) (h2 : l2.get? j = some b) :
    (l1.zip l2).get? j = some (a, b) := by
  induction l1 generalizing l2 j with
  | nil => simp at h1
  | cons x t ih =>
    cases l2 with
    | nil => simp at h2
    | cons y u =>
      cases j with
      | zero =>
        simp only [List.get?_cons_zero, Option.some_inj] at h1 h2
        subst h1; subst h2
        rfl
      | succ n =>
        simp only [List.get?_cons_succ] at h1 h2 ⊢
        exact ih h1 h2

lemma selectEach_length {group : MdfGroup} {o c : Int} :
    ∀ {ids : List Int} {out : List SampleData},
      selectEach group o c ids = some out → out.length = ids.length := by
  intro ids
  induction ids with
  | nil =>
    intro out h
    simp only [selectEach, Option.some_inj] at h
    subst h; rfl
  | cons i t ih =>
    intro out h
    simp only [selectEach] at h
    cases hp : pyGet group.channels i with
    | none => rw [hp] at h; simp at h
    | some channel =>
      rw [hp] at h
      simp only at h
      cases hs : selectEach group o c t with
      | none => rw [hs] at h; simp at h
      | some sects =>
        rw [hs] at h
        simp only [Option.some_inj] at h
        subst h
        simp [ih hs]

lemma selectEach_get {group : MdfGroup} {o c : Int} :
    ∀ {ids : List Int} {out : List SampleData} {j : Nat} {cid : Int},
      selectEach group o c ids = some out → ids.get? j = some cid →
      ∃ ch, pyGet group.channels cid = some ch ∧
        out.get? j = some (ch.samples.slice o c) := by
  intro ids
  induction ids with
  | nil => intro out j cid h hg; simp at hg
  | cons i t ih =>
    intro out j cid h hg
    simp only [selectEach] at h
    cases hp : pyGet group.channels i with
    | none => rw [hp] at h; simp at h
    | some channel =>
      rw [hp] at h
      simp only at h
      cases hs : selectEach group o c t with
      | none => rw [hs] at h; simp at h
      | some sects =>
        rw [hs] at h
        simp only [Option.some_inj] at h
        subst h
        cases j with
        | zero =>
          simp only [List.get?_cons_zero, Option.some_inj] at hg ⊢
          subst hg
          exact ⟨channel, hp, rfl⟩
        | succ n =>
          simp only [List.get?_cons_succ] at hg ⊢
          exact ih hs hg

lemma encode_error_cases {dt : DataTypeEnum} {cid : Int} {sect : SampleData}
    {e : Err} (h : encodeChannelValues dt cid sect = .error e) :
    e = .notImplementedError ∨ e = .typeMismatch := by
  cases dt <;> cases sect <;>
    simp only [encodeChannelValues, Except.error.injEq] at h <;>
    first
      | (exact Or.inl h.symm)
      | (exact Or.inr h.symm)
      | (exact absurd h (by simp))

lemma encode_rowcount {dt : DataTypeEnum} {cid : Int} {sect : SampleData}
    {cv : ChannelValues} (h : encodeChannelValues dt cid sect = .ok cv) :
    returnedRowCount cv = sect.len ∧ cv.data_type = dt ∧ cv.id = cid := by
  cases dt <;> cases sect <;>
    simp only [encodeChannelValues, Except.ok.injEq] at h <;>
    first
      | (exact absurd h (by simp))
      | (subst h;
         refine ⟨?_, rfl, rfl⟩;
         simp only [returnedRowCount, TypedArray.arrayLen];
         rw [if_pos (by simp), interleave_length];
         simp only [SampleData.len];
         omega)
      | (subst h;
         refine ⟨?_, rfl, rfl⟩;
         simp [returnedRowCount, TypedArray.arrayLen, SampleData.len];
         done)

lemma encodeLoop_length {group : MdfGroup} :
    ∀ {pairs : List (SampleData × Int)} {out : List ChannelValues},
      encodeLoop group pairs = .ok out → out.length = pairs.length := by
  intro pairs
  induction pairs with
  | nil =>
    intro out h
    simp only [encodeLoop, Except.ok.injEq] at h
    subst h; rfl
  | cons pair t ih =>
    intro out h
    simp only [encodeLoop] at h
    cases hp : pyGet group.channels pair.2 with
    | none => rw [hp] at h; simp at h
    | some channel =>
      rw [hp] at h
      simp only at h
      cases he : encodeChannelValues (get_channel_data_type channel)
          pair.2 pair.1 with
      | error e => rw [he] at h; simp at h
      | ok cv =>
        rw [he] at h
        simp only at h
        cases hl : encodeLoop group t with
        | error e => rw [hl] at h; simp at h
        | ok cvs =>
          rw [hl] at h
          simp only [Except.ok.injEq] at h
          subst h
          simp [ih hl]

lemma encodeLoop_get {group : MdfGroup} :
    ∀ {pairs : List (SampleData × Int)} {out : List ChannelValues} {j : Nat}
      {pair : SampleData × Int},
      encodeLoop group pairs = .ok out → pairs.get? j = some pair →
      ∃ ch cv, pyGet group.channels pair.2 = some ch ∧
        encodeChannelValues (get_channel_data_type ch) pair.2 pair.1 = .ok cv ∧
        out.get? j = some cv := by
  intro pairs
  induction pairs with
  | nil => intro out j pair h hg; simp at hg
  | cons q t ih =>
    intro out j pair h hg
    simp only [encodeLoop] at h
    cases hp : pyGet group.channels q.2 with
    | none => rw [hp] at h; simp at h
    | some channel =>
      rw [hp] at h
      simp only at h
      cases he : encodeChannelValues (get_channel_data_type channel)
          q.2 q.1 with
      | error e => rw [he] at h; simp at h
      | ok cv =>
        rw [he] at h
        simp only at h
        cases hl : encodeLoop group t with
        | error e => rw [hl] at h; simp at h
        | ok cvs =>
          rw [hl] at h
          simp only [Except.ok.injEq] at h
          subst h
          cases j with
          | zero =>
            simp only [List.get?_cons_zero, Option.some_inj] at hg ⊢
            subst hg
            exact ⟨channel, cv, hp, he, rfl⟩
          | succ n =>
            simp only [List.get?_cons_succ] at hg ⊢
            exact ih hl hg

lemma encodeLoop_error_cases {group : MdfGroup} :
    ∀ {pairs : List (SampleData × Int)} {e : Err},
      encodeLoop group pairs = .error e →
      e = .indexError ∨ e = .notImplementedError ∨ e = .typeMismatch := by
  intro pairs
  induction pairs with
  | nil => intro e h; simp [encodeLoop] at h
  | cons q t ih =>
    intro e h
    simp only [encodeLoop] at h
    cases hp : pyGet group.channels q.2 with
    | none =>
      rw [hp] at h
      simp only [Except.error.injEq] at h
      exact Or.inl h.symm
    | some channel =>
      rw [hp] at h
      simp only at h
      cases he : encodeChannelValues (get_channel_data_type channel)
          q.2 q.1 with
      | error e' =>
        rw [he] at h
        simp only [Except.error.injEq] at h
        subst h
        exact Or.inr (encode_error_cases he)
      | ok cv =>
        rw [he] at h
        simp only at h
        cases hl : encodeLoop group t with
        | error e' =>
          rw [hl] at h
          simp only [Except.error.injEq] at h
          subst h
          exact ih hl
        | ok cvs => rw [hl] at h; simp at h

lemma getValues_eq_onMdf {resolve : String → String} {s : ServerState}
    {req : ValuesRequest} {mdf4 : Mdf}
    (hmdf : get_mdf resolve s req.handle = .ok mdf4) :
    getValues resolve s req = getValuesOnMdf mdf4 req := by
  simp [getValues, hmdf]

lemma getValuesOnMdf_ok_spec {mdf4 : Mdf} {req : ValuesRequest}
    {res : ValuesResult} {group : MdfGroup}
    (hgroup : mdf4.groups.get? req.group_id.toNat = some group)
    (hgid : 0 ≤ req.group_id)
    (hok : getValuesOnMdf mdf4 req = .ok res) :
    req.start ≤ (group.cycles_nr : Int) ∧
    (∀ i ∈ req.channel_ids, i < (group.channels.length : Int)) ∧
    res.id = req.group_id ∧
    res.channels.length = req.channel_ids.length ∧
    (∀ j cid, req.channel_ids.get? j = some cid →
      ∃ ch cv, pyGet group.channels cid = some ch ∧
        res.channels.get? j = some cv ∧
        encodeChannelValues (get_channel_data_type ch) cid
          (ch.samples.slice req.start req.limit) = .ok cv) := by
  have hlt : req.group_id.toNat < mdf4.groups.length :=
    (List.get?_eq_some.mp hgroup).1
  have hcond : ¬(req.group_id < 0 ∨ (mdf4.groups.length : Int) ≤ req.group_id) := by
    omega
  rw [getValuesOnMdf, if_neg hcond, hgroup] at hok
  simp only at hok
  by_cases hstart : (group.cycles_nr : Int) < req.start
  · rw [if_pos hstart] at hok; exact absurd hok (by simp)
  · rw [if_neg hstart] at hok
    by_cases hall : req.channel_ids.all
        (fun channel_id => decide (channel_id < (group.channels.length : Int)))
    · rw [if_pos hall] at hok
      simp only [mdfSelect, hgroup] at hok
      cases hsel : selectEach group req.start req.limit req.channel_ids with
      | none => rw [hsel] at hok; exact absurd hok (by simp)
      | some data =>
        rw [hsel] at hok
        simp only at hok
        have hdlen := selectEach_length hsel
        rw [if_neg (by omega)] at hok
        cases henc : encodeLoop group (data.zip req.channel_ids) with
        | error e => rw [henc] at hok; exact absurd hok (by simp)
        | ok chans =>
          rw [henc] at hok
          simp only at hok
          simp only [Except.ok.injEq] at hok
          subst hok
          have hclen := encodeLoop_length henc
          have hzlen : (data.zip req.channel_ids).length
              = req.channel_ids.length := by
            simp [List.length_zip]; omega
          refine ⟨by omega, ?_, rfl, by simp [hclen, hzlen], ?_⟩
          · intro i hi
            have := List.all_eq_true.mp hall i hi
            simpa using this
          · intro j cid hj
            have hjlt : j < req.channel_ids.length :=
              (List.get?_eq_some.mp hj).1
            have hdj : ∃ sect, data.get? j = some sect := by
              have : j < data.length := by omega
              cases hd : data.get? j with
              | none => rw [List.get?_eq_none] at hd; omega
              | some sect => exact ⟨sect, rfl⟩
            obtain ⟨sect, hdjv⟩ := hdj
            obtain ⟨ch, hch, hsect⟩ := selectEach_get hsel hj
            rw [hdjv] at hsect
            have hsecteq : sect = ch.samples.slice req.start req.limit :=
              Option.some.inj hsect
            subst hsecteq
            have hpair := zip_get? hdjv hj
            obtain ⟨ch', cv, hch', henc', hout⟩ := encodeLoop_get henc hpair
            rw [hch] at hch'
            have hcheq : ch = ch' := Option.some.inj hch'
            subst hcheq
            exact ⟨ch, cv, hch, hout, henc'⟩
    · rw [if_neg hall] at hok; exact absurd hok (by simp)

/-- C4: for a valid group id and a start row not exceeding the group's
row count, the end-row computation of `GetValues` equals
`min (start + limit, rowCount)`, and every returned channel carries
exactly `min (start + limit, rowCount) - start` rows — in particular a
limit beyond the row count yields `rowCount` rows, not `limit` rows.  The
decoder contract (each channel column has exactly the group's row count)
is the hypothesis `hwf`. -/
theorem c4_row_window_clamping (resolve : String → String) (s : ServerState)
    (req : ValuesRequest) (mdf4 : Mdf) (group : MdfGroup) (res : ValuesResult)
    (hmdf : get_mdf resolve s req.handle = .ok mdf4)
    (hgroup : mdf4.groups.get? req.group_id.toNat = some group)
    (hgid : 0 ≤ req.group_id)
    (hwf : ∀ ch ∈ group.channels, ch.samples.len = group.cycles_nr)
    (hstart : 0 ≤ req.start)
    (hlimit : 0 ≤ req.limit)
    (hok : getValues resolve s req = .ok res) :
    end_index_calc req.start req.limit group.cycles_nr
        = min (req.start + req.limit) (group.cycles_nr : Int) ∧
    ∀ cv ∈ res.channels, (returnedRowCount cv : Int)
        = min (req.start + req.limit) (group.cycles_nr : Int) - req.start := by
  rw [getValues_eq_onMdf hmdf] at hok
  obtain ⟨hstartle, hidslt, hid, hlen, hcorr⟩ :=
    getValuesOnMdf_ok_spec hgroup hgid hok
  constructor
  · simp only [end_index_calc]
    split_ifs <;> omega
  · intro cv hcv
    obtain ⟨j, hj⟩ := List.mem_iff_get?.mp hcv
    have hjlt : j < res.channels.length := (List.get?_eq_some.mp hj).1
    have hjlt' : j < req.channel_ids.length := by omega
    obtain ⟨cid, hcid⟩ : ∃ cid, req.channel_ids.get? j = some cid := by
      cases hg : req.channel_ids.get? j with
      | none => rw [List.get?_eq_none] at hg; omega
      | some cid => exact ⟨cid, rfl⟩
    obtain ⟨ch, cv', hch, hcv', henc⟩ := hcorr j cid hcid
    rw [hj] at hcv'
    have hcveq : cv = cv' := Option.some.inj hcv'
    subst hcveq
    obtain ⟨hrc, -, -⟩ := encode_rowcount henc
    have hwfc : ch.samples.len = group.cycles_nr := hwf ch (pyGet_mem hch)
    rw [hrc, slice_len, hwfc]
    omega

/-- Witness for C4 at the sample state: a request with limit 5 over a
3-row group returns exactly 3 rows. -/
theorem c4_row_window_clamping_witness :
    end_index_calc c4Req.start c4Req.limit sampleGroup.cycles_nr
        = min (c4Req.start + c4Req.limit) (sampleGroup.cycles_nr : Int) ∧
    ∀ cv ∈ c4Res.channels, (returnedRowCount cv : Int)
        = min (c4Req.start + c4Req.limit) (sampleGroup.cycles_nr : Int)
          - c4Req.start :=
  c4_row_window_clamping idResolve sampleState c4Req sampleMdf sampleGroup
    c4Res rfl rfl (by decide) (by decide) (by decide) (by decide) rfl

/-- C5 (amended): with a valid group id and start row, `GetValues`
rejects with the invalid-channel `InvalidArgument` abort exactly when
some requested channel id is `≥ channelCount`; ids below zero pass the
validation (the code only checks the upper bound). -/
theorem c5_channel_id_validation (resolve : String → String) (s : ServerState)
    (req : ValuesRequest) (mdf4 : Mdf) (group : MdfGroup)
    (hmdf : get_mdf resolve s req.handle = .ok mdf4)
    (hgroup : mdf4.groups.get? req.group_id.toNat = some group)
    (hgid : 0 ≤ req.group_id)
    (hstart : req.start ≤ (group.cycles_nr : Int)) :
    (getValues resolve s req = .error .invalidChannel ↔
      ∃ i ∈ req.channel_ids, (group.channels.length : Int) ≤ i) := by
  rw [getValues_eq_onMdf hmdf]
  have hlt : req.group_id.toNat < mdf4.groups.length :=
    (List.get?_eq_some.mp hgroup).1
  have hcond : ¬(req.group_id < 0 ∨ (mdf4.groups.length : Int) ≤ req.group_id) := by
    omega
  rw [getValuesOnMdf, if_neg hcond, hgroup]
  simp only
  rw [if_neg (by omega : ¬((group.cycles_nr : Int) < req.start))]
  by_cases hall : req.channel_ids.all
      (fun channel_id => decide (channel_id < (group.channels.length : Int)))
  · rw [if_pos hall]
    constructor
    · intro hres
      exfalso
      simp only [mdfSelect, hgroup] at hres
      cases hsel : selectEach group req.start req.limit req.channel_ids with
      | none => rw [hsel] at hres; simp at hres
      | some data =>
        rw [hsel] at hres
        simp only at hres
        have hdlen := selectEach_length hsel
        rw [if_neg (by omega)] at hres
        cases henc : encodeLoop group (data.zip req.channel_ids) with
        | error e =>
          rw [henc] at hres
          simp only [Except.error.injEq] at hres
          subst hres
          rcases encodeLoop_error_cases henc with h | h | h <;>
            exact absurd h (by decide)
        | ok chans =>
          rw [henc] at hres
          simp at hres
    · intro hex
      exfalso
      obtain ⟨i, hi, hge⟩ := hex
      have h := List.all_eq_true.mp hall i hi
      rw [decide_eq_true_eq] at h
      omega
  · rw [if_neg hall]
    constructor
    · intro _
      simp only [List.all_eq_true] at hall
      push_neg at hall
      obtain ⟨i, hi, hdec⟩ := hall
      refine ⟨i, hi, ?_⟩
      simp only [ne_eq, decide_eq_true_eq] at hdec
      omega
    · intro _; rfl

/-- Witness for C5 (amended): channel id 5 on a 4-channel group is
rejected as an invalid channel. -/
theorem c5_channel_id_validation_witness :
    getValues idResolve sampleState c5ReqBig = .error .invalidChannel ↔
      ∃ i ∈ c5ReqBig.channel_ids,
        (sampleGroup.channels.length : Int) ≤ i :=
  c5_channel_id_validation idResolve sampleState c5ReqBig sampleMdf
    sampleGroup rfl rfl (by decide) (by decide)

/-- C5 counterexample: a negative channel id is not rejected — the claim
says every negative id yields `InvalidArgument` with no data, but the
request succeeds, and Python's negative indexing returns the last
channel's data under id `-1`. -/
theorem c5_counterexample :
    ((-1 : Int) < 0) ∧
    getValues idResolve sampleState c5NegReq
      = .ok ⟨0, [⟨-1, .DT_SHORT, .long_array [7, 8, 9]⟩]⟩ := by
  constructor
  · decide
  · rfl

/-- C6: a channel whose normalized type is complex (resp. double-complex)
is returned as a flat float (resp. double) array of length exactly twice
the number of samples in the row window, with strict alternation: the
element at index `2k` is sample `k`'s real part and the element at
`2k + 1` is its imaginary part. -/
theorem c6_complex_interleaving (resolve : String → String) (s : ServerState)
    (req : ValuesRequest) (mdf4 : Mdf) (group : MdfGroup) (res : ValuesResult)
    (j : Nat) (cid : Int) (ch : MdfChannel) (cv : ChannelValues)
    (cvals svals : List (Int × Int))
    (hmdf : get_mdf resolve s req.handle = .ok mdf4)
    (hgroup : mdf4.groups.get? req.group_id.toNat = some group)
    (hgid : 0 ≤ req.group_id)
    (hok : getValues resolve s req = .ok res)
    (hj : req.channel_ids.get? j = some cid)
    (hcv : res.channels.get? j = some cv)
    (hch : pyGet group.channels cid = some ch)
    (hsam : ch.samples = .complexes cvals)
    (hsv : svals = (cvals.drop req.start.toNat).take req.limit.toNat) :
    (get_channel_data_type ch = .DT_COMPLEX →
      ∃ ivals, cv.values = .float_array ivals ∧
        ivals.length = 2 * svals.length ∧
        (∀ k, ivals.get? (2 * k) = (svals.get? k).map Prod.fst) ∧
        (∀ k, ivals.get? (2 * k + 1) = (svals.get? k).map Prod.snd)) ∧
    (get_channel_data_type ch = .DT_DCOMPLEX →
      ∃ ivals, cv.values = .double_array ivals ∧
        ivals.length = 2 * svals.length ∧
        (∀ k, ivals.get? (2 * k) = (svals.get? k).map Prod.fst) ∧
        (∀ k, ivals.get? (2 * k + 1) = (svals.get? k).map Prod.snd)) := by
  rw [getValues_eq_onMdf hmdf] at hok
  obtain ⟨-, -, -, -, hcorr⟩ := getValuesOnMdf_ok_spec hgroup hgid hok
  obtain ⟨ch', cv', hch', hcv', henc⟩ := hcorr j cid hj
  rw [hch] at hch'
  have hcheq : ch = ch' := Option.some.inj hch'
  subst hcheq
  rw [hcv] at hcv'
  have hcveq : cv = cv' := Option.some.inj hcv'
  subst hcveq
  rw [hsam] at henc
  simp only [SampleData.slice] at henc
  rw [← hsv] at henc
  constructor
  · intro hdt
    rw [hdt] at henc
    simp only [encodeChannelValues, Except.ok.injEq] at henc
    subst henc
    exact ⟨svals.flatMap fun p => [p.1, p.2], rfl, interleave_length svals,
      interleave_get_even svals, interleave_get_odd svals⟩
  · intro hdt
    rw [hdt] at henc
    simp only [encodeChannelValues, Except.ok.injEq] at henc
    subst henc
    exact ⟨svals.flatMap fun p => [p.1, p.2], rfl, interleave_length svals,
      interleave_get_even svals, interleave_get_odd svals⟩

/-- Witness for C6 at the sample complex channel: three samples yield a
six-element float array with real, imaginary alternation. -/
theorem c6_complex_interleaving_witness :
    (get_channel_data_type sampleChannelComplex = .DT_COMPLEX →
      ∃ ivals, c6Cv.values = .float_array ivals ∧
        ivals.length = 2 * c6Svals.length ∧
        (∀ k, ivals.get? (2 * k) = (c6Svals.get? k).map Prod.fst) ∧
        (∀ k, ivals.get? (2 * k + 1) = (c6Svals.get? k).map Prod.snd)) ∧
    (get_channel_data_type sampleChannelComplex = .DT_DCOMPLEX →
      ∃ ivals, c6Cv.values = .double_array ivals ∧
        ivals.length = 2 * c6Svals.length ∧
        (∀ k, ivals.get? (2 * k) = (c6Svals.get? k).map Prod.fst) ∧
        (∀ k, ivals.get? (2 * k + 1) = (c6Svals.get? k).map Prod.snd)) :=
  c6_complex_interleaving idResolve sampleState c6Req sampleMdf sampleGroup
    ⟨0, [c6Cv]⟩ 0 1 sampleChannelComplex c6Cv [(1, 2), (3, 4), (5, 6)] c6Svals
    rfl rfl (by decide) rfl rfl rfl rfl rfl rfl

lemma encode_date (cid : Int) (sect : SampleData) :
    encodeChannelValues .DT_DATE cid sect = .error .notImplementedError := by
  cases sect <;> rfl

/-- C8: a channel whose inferred normalized type is date always makes
`GetValues` raise the unrecognized-encoding `NotImplementedError` (the
dispatch has no date branch), although the structure builder reports the
date type for the same channel. -/
theorem c8_date_not_implemented (resolve : String → String) (s : ServerState)
    (req : ValuesRequest) (mdf4 : Mdf) (group : MdfGroup) (cid : Int)
    (ch : MdfChannel)
    (hmdf : get_mdf resolve s req.handle = .ok mdf4)
    (hgroup : mdf4.groups.get? req.group_id.toNat = some group)
    (hgid : 0 ≤ req.group_id)
    (hstart : req.start ≤ (group.cycles_nr : Int))
    (hids : req.channel_ids = [cid])
    (hlt : cid < (group.channels.length : Int))
    (hch : pyGet group.channels cid = some ch)
    (hdt : get_channel_data_type ch = .DT_DATE) :
    getValues resolve s req = .error .notImplementedError ∧
    ∀ idx, (buildChannel idx ch).data_type = .DT_DATE := by
  constructor
  · rw [getValues_eq_onMdf hmdf]
    have hltg : req.group_id.toNat < mdf4.groups.length :=
      (List.get?_eq_some.mp hgroup).1
    rw [getValuesOnMdf, if_neg (by omega), hgroup]
    simp only
    rw [if_neg (by omega : ¬((group.cycles_nr : Int) < req.start))]
    rw [if_pos (by rw [hids]; simp [hlt])]
    simp only [mdfSelect, hgroup, hids]
    simp only [selectEach, hch]
    rw [if_neg (by simp)]
    simp only [List.zip]
    simp only [encodeLoop, hch, hdt, encode_date]
  · intro idx
    simp [buildChannel, hdt]

/-- Witness for C8 at the sample date channel (kind 13): the request
fails with `NotImplementedError` while the structure reports the date
type. -/
theorem c8_date_not_implemented_witness :
    getValues idResolve sampleState c8Req = .error .notImplementedError ∧
    ∀ idx, (buildChannel idx sampleChannelDate).data_type = .DT_DATE :=
  c8_date_not_implemented idResolve sampleState c8Req sampleMdf sampleGroup 2
    sampleChannelDate rfl rfl (by decide) (by decide) rfl (by decide) rfl
    (by decide)

/-- C9: a channel whose normalized type is short is delivered in the
long-array variant of the typed-value container (the same variant used
for long channels) while the declared per-channel data type stays
short. -/
theorem c9_short_marshals_as_long_array (resolve : String → String)
    (s : ServerState) (req : ValuesRequest) (mdf4 : Mdf) (group : MdfGroup)
    (res : ValuesResult) (j : Nat) (cid : Int) (ch : MdfChannel)
    (cv : ChannelValues) (nvals svals : List Int)
    (hmdf : get_mdf resolve s req.handle = .ok mdf4)
    (hgroup : mdf4.groups.get? req.group_id.toNat = some group)
    (hgid : 0 ≤ req.group_id)
    (hok : getValues resolve s req = .ok res)
    (hj : req.channel_ids.get? j = some cid)
    (hcv : res.channels.get? j = some cv)
    (hch : pyGet group.channels cid = some ch)
    (hsam : ch.samples = .numeric nvals)
    (hdt : get_channel_data_type ch = .DT_SHORT)
    (hsv : svals = (nvals.drop req.start.toNat).take req.limit.toNat) :
    cv.data_type = .DT_SHORT ∧
    cv.values = .long_array svals ∧
    encodeChannelValues .DT_LONG cid (.numeric svals)
      = .ok ⟨cid, .DT_LONG, .long_array svals⟩ := by
  rw [getValues_eq_onMdf hmdf] at hok
  obtain ⟨-, -, -, -, hcorr⟩ := getValuesOnMdf_ok_spec hgroup hgid hok
  obtain ⟨ch', cv', hch', hcv', henc⟩ := hcorr j cid hj
  rw [hch] at hch'
  have hcheq : ch = ch' := Option.some.inj hch'
  subst hcheq
  rw [hcv] at hcv'
  have hcveq : cv = cv' := Option.some.inj hcv'
  subst hcveq
  rw [hsam] at henc
  simp only [SampleData.slice] at henc
  rw [← hsv, hdt] at henc
  simp only [encodeChannelValues, Except.ok.injEq] at henc
  subst henc
  exact ⟨rfl, rfl, rfl⟩

/-- Witness for C9 at the sample short channel (kind 2 at 16 bits): the
values land in the long array while the data type stays short. -/
theorem c9_short_marshals_as_long_array_witness :
    c9Cv.data_type = .DT_SHORT ∧
    c9Cv.values = .long_array [7, 8, 9] ∧
    encodeChannelValues .DT_LONG 3 (.numeric [7, 8, 9])
      = .ok ⟨3, .DT_LONG, .long_array [7, 8, 9]⟩ :=
  c9_short_marshals_as_long_array idResolve sampleState c9Req sampleMdf
    sampleGroup ⟨0, [c9Cv]⟩ 0 3 sampleChannelShort c9Cv [7, 8, 9] [7, 8, 9]
    rfl rfl (by decide) rfl rfl rfl rfl rfl (by decide) rfl

/-- C10: a successful `Close` removes the handle binding, so any
subsequent `GetStructure`, `GetValues` or `Close` on the same handle
fails with the raw `KeyError` of the handle-map lookup — an internal
error, not a protocol-level NotFound — and, failing before any mutation,
leaves the registry maps unchanged. -/
theorem c10_closed_handle_fails (resolve baseName : String → String)
    (s s' : ServerState) (uuid : Nat)
    (hnodup : (s.connection_map.map Prod.fst).Nodup)
    (hclose : close_mdf resolve uuid s = .ok s') :
    mapLookup s'.connection_map uuid = none ∧
    get_mdf resolve s' uuid = .error .keyError ∧
    close_mdf resolve uuid s' = .error .keyError ∧
    (∀ req : ValuesRequest, req.handle = uuid →
      getValues resolve s' req = .error .keyError) ∧
    (∀ req : StructureRequest, req.handle = uuid →
      req.suppress_channels = false → req.suppress_attributes = false →
      req.channel_names = [] →
      getStructure resolve baseName s' req = .error .keyError) := by
  have hcm : s'.connection_map = mapErase s.connection_map uuid := by
    cases hc : mapLookup s.connection_map uuid with
    | none => rw [close_mdf, hc] at hclose; exact absurd hclose (by simp)
    | some url =>
      cases hf : mapLookup s.file_map (resolve url) with
      | none =>
        rw [close_mdf, hc] at hclose
        simp only at hclose
        rw [hf] at hclose
        simp at hclose
      | some e =>
        by_cases hrc : e.ref_count > 1
        · rw [close_mdf_eq_dec resolve uuid s url e hc hf hrc] at hclose
          rw [← Except.ok.inj hclose]
        · rw [close_mdf_eq_del resolve uuid s url e hc hf hrc] at hclose
          rw [← Except.ok.inj hclose]
  have h1 : mapLookup s'.connection_map uuid = none := by
    rw [hcm]
    exact mapLookup_mapErase_self uuid hnodup
  refine ⟨h1, ?_, ?_, ?_, ?_⟩
  · simp only [get_mdf, h1]
  · simp only [close_mdf, h1]
  · intro req hreq
    simp only [getValues, get_mdf, hreq, h1]
  · intro req hreq hsc hsa hcn
    rw [getStructure, if_neg (by simp [hsc, hsa, hcn])]
    rw [hreq, h1]

/-- Witness for C10 at a one-handle state: after closing handle 1, the
binding is gone and every reuse of the handle fails with `KeyError`. -/
theorem c10_closed_handle_fails_witness :
    mapLookup c10Closed.connection_map 1 = none ∧
    get_mdf idResolve c10Closed 1 = .error .keyError ∧
    close_mdf idResolve 1 c10Closed = .error .keyError ∧
    (∀ req : ValuesRequest, req.handle = 1 →
      getValues idResolve c10Closed req = .error .keyError) ∧
    (∀ req : StructureRequest, req.handle = 1 →
      req.suppress_channels = false → req.suppress_attributes = false →
      req.channel_names = [] →
      getStructure idResolve idResolve c10Closed req = .error .keyError) :=
  c10_closed_handle_fails idResolve idResolve c10State c10Closed 1
    (by decide) rfl

end Mdf4Exd
